/-
Verification of the image-annotation backend
(`backend/db.ts` + `backend/server.ts`): a shallow embedding of the
SQLite store, of the SQL statements the handlers issue, and of the five
HTTP handlers, together with theorems settling the specified properties.

Modelling notes, justified line-by-line against the source:
* `db.ts` declares `FOREIGN KEY ... ON DELETE CASCADE` on `annotations`,
  but the connection never executes `PRAGMA foreign_keys = ON`; SQLite
  leaves foreign-key enforcement OFF by default, so the declared
  constraints are inert.  The embedding therefore performs no
  referential check on inserts and no cascade on deletes — exactly what
  the running program does.  The `UNIQUE` constraints and
  `INSERT OR IGNORE` are enforced, as SQLite always enforces those.
* JavaScript request values: the body fields are numbers/strings; the
  handlers validate them by truthiness (`!imageId`), which for a number
  rejects exactly `0` (and `NaN`); integers are modelled as `Int`.
* `AUTOINCREMENT` ids are modelled by per-table counters starting at 1.
* The filesystem (`uploads` directory) is the list of stored paths;
  `fs.unlink`'s success or failure is an explicit boolean input.
-/
import Mathlib

set_option linter.unusedVariables false

/-- A row of the `images` table (`db.ts` lines 16-21); `upload_time` is
never read by any handler and is omitted. -/
structure ImageRow where
  id : Int
  filename : String
  file_path : String
deriving DecidableEq, Repr

/-- A row of the `labels` table (`db.ts` lines 24-27). -/
structure LabelRow where
  id : Int
  name : String
deriving DecidableEq, Repr

/-- A row of the `annotations` table (`db.ts` lines 30-38). -/
structure AnnRow where
  id : Int
  image_id : Int
  label_id : Int
deriving DecidableEq, Repr

/-- The persistent state: the three tables (in insertion = id order, as
SQLite scans them), the three `AUTOINCREMENT` counters, and the set of
paths present in the uploads directory. -/
structure DB where
  images : List ImageRow
  labels : List LabelRow
  anns : List AnnRow
  nextImageId : Int
  nextLabelId : Int
  nextAnnId : Int
  files : List String
deriving DecidableEq, Repr

/-- An HTTP response of the backend, as far as the handlers distinguish
them: `201` with id and filename, `200` with a success message, `400`
with an error message, `404` with an error message. -/
inductive Resp where
  | created (imageId : Int) (filename : String)
  | ok (message : String)
  | badRequest (error : String)
  | notFound (error : String)
deriving DecidableEq, Repr

/-- `SELECT id FROM labels WHERE name = ?` (`server.ts` line 102). -/
def sqlFindLabelByName (db : DB) (n : String) : Option LabelRow :=
  db.labels.find? (fun l => l.name == n)

/-- `INSERT INTO labels (name) VALUES (?)` (`server.ts` line 121):
fails on the `name UNIQUE` constraint, otherwise appends a row with the
next id and returns that id (`this.lastID`). -/
def sqlInsertLabel (db : DB) (n : String) : Except String (DB × Int) :=
  if (db.labels.find? (fun l => l.name == n)).isSome then
    .error "UNIQUE constraint failed: labels.name"
  else
    .ok ({ db with labels := db.labels ++ [⟨db.nextLabelId, n⟩],
                   nextLabelId := db.nextLabelId + 1 }, db.nextLabelId)

/-- The `UNIQUE(image_id, label_id)` constraint's matching predicate. -/
def annMatches (a : AnnRow) (i l : Int) : Bool :=
  a.image_id == i && a.label_id == l

/-- `INSERT OR IGNORE INTO annotations (image_id, label_id)`
(`server.ts` line 110): a no-op when the pair already exists, an
unconditional insert otherwise — the declared foreign keys are not
checked because the connection never enables `foreign_keys`. -/
def sqlInsertAnnOrIgnore (db : DB) (i l : Int) : DB :=
  if db.anns.any (fun a => annMatches a i l) then db
  else { db with anns := db.anns ++ [⟨db.nextAnnId, i, l⟩],
                 nextAnnId := db.nextAnnId + 1 }

/-- `INSERT INTO annotations (image_id, label_id)` (`server.ts` line
127): errors on a duplicate pair, inserts otherwise (again with no
foreign-key check). -/
def sqlInsertAnn (db : DB) (i l : Int) : Except String DB :=
  if db.anns.any (fun a => annMatches a i l) then
    .error "UNIQUE constraint failed: annotations.image_id, annotations.label_id"
  else
    .ok { db with anns := db.anns ++ [⟨db.nextAnnId, i, l⟩],
                  nextAnnId := db.nextAnnId + 1 }

/-- `SELECT file_path FROM images WHERE id = ?` (`server.ts` line 178,
the handler also uses only existence of the row). -/
def sqlGetImage (db : DB) (i : Int) : Option ImageRow :=
  db.images.find? (fun r => r.id == i)

/-- `DELETE FROM annotations WHERE image_id = ?` (`server.ts` line 194). -/
def sqlDeleteAnnsByImage (db : DB) (i : Int) : DB :=
  { db with anns := db.anns.filter (fun a => !(a.image_id == i)) }

/-- `DELETE FROM images WHERE id = ?` (`server.ts` line 200). -/
def sqlDeleteImageRow (db : DB) (i : Int) : DB :=
  { db with images := db.images.filter (fun r => !(r.id == i)) }

/-- `DELETE FROM annotations WHERE image_id = ? AND label_id = ?`
(`server.ts` line 227). -/
def sqlDeleteAnnPair (db : DB) (i l : Int) : DB :=
  { db with anns := db.anns.filter (fun a => !(annMatches a i l)) }

/-- `INSERT INTO images (filename, file_path) VALUES (?, ?)`
(`server.ts` line 71): fails on the `filename UNIQUE` constraint,
otherwise appends a row and returns its id. -/
def sqlInsertImage (db : DB) (fn fp : String) : Except String (DB × Int) :=
  if (db.images.find? (fun r => r.filename == fn)).isSome then
    .error "UNIQUE constraint failed: images.filename"
  else
    .ok ({ db with images := db.images ++ [⟨db.nextImageId, fn, fp⟩],
                   nextImageId := db.nextImageId + 1 }, db.nextImageId)

/-- The store right after `db.ts` ran: empty tables, then
`INSERT OR IGNORE INTO labels (name) VALUES ('cat'), ('dog'), ('car')`
(`db.ts` lines 41-42) seeds labels 1, 2 and 3. -/
def initDB : DB :=
  { images := [], labels := [⟨1, "cat"⟩, ⟨2, "dog"⟩, ⟨3, "car"⟩],
    anns := [], nextImageId := 1, nextLabelId := 4, nextAnnId := 1,
    files := [] }

/-- Decimal digits of a natural number, most significant first, exactly
as JavaScript renders `Date.now()` in `${...}` and as SQLite renders an
INTEGER; fuel-structured so that the kernel can evaluate it. -/
def natDecimalAux : Nat → Nat → List Char
  | 0, _ => []
  | fuel + 1, n =>
    if n < 10 then [Nat.digitChar n]
    else natDecimalAux fuel (n / 10) ++ [Nat.digitChar (n % 10)]

/-- Decimal rendering of a natural number. -/
def natDecimal (n : Nat) : String :=
  ⟨natDecimalAux (n + 1) n⟩

/-- Decimal rendering of an integer (SQLite's rendering of an INTEGER
value inside `GROUP_CONCAT`). -/
def intDecimal : Int → String
  | .ofNat n => natDecimal n
  | .negSucc n => "-" ++ natDecimal (n + 1)

/-- JavaScript's `split('.')` on character lists: cut at every dot
(`'a.b.'` becomes `['a', 'b', '']`, a dotless string stays whole). -/
def splitDot : List Char → List (List Char)
  | [] => [[]]
  | c :: rest =>
    if c = '.' then [] :: splitDot rest
    else
      match splitDot rest with
      | [] => [[c]]
      | h :: t => (c :: h) :: t

/-- `file.originalname.split('.').pop()` (`server.ts` line 30): the part
of the original name after the last dot (the whole name when it has no
dot, the empty string when it ends in a dot). -/
def extOf (orig : String) : String :=
  ⟨(splitDot orig.data).getLastD []⟩

/-- The multer `filename` callback (`server.ts` lines 28-33):
`image-${Date.now()}.${fileExt}`. -/
def genFilename (t : Nat) (orig : String) : String :=
  "image-" ++ natDecimal t ++ "." ++ extOf orig

/-- `POST /api/images` (`server.ts` lines 59-82) for a request that
passed the multer filter (a jpeg/png of at most 5 MiB): multer writes
the file under the generated name — overwriting any file already at
that path — and the handler then inserts the Image row; on a constraint
failure it answers 400 and the file stays on disk. `t` is the
`Date.now()` value observed by the filename callback. -/
def uploadImage (db : DB) (t : Nat) (originalname : String) : Resp × DB :=
  let fn := genFilename t originalname
  let fp := "uploads/" ++ fn
  let db1 := if fp ∈ db.files then db else { db with files := db.files ++ [fp] }
  match sqlInsertImage db1 fn fp with
  | .error e => (.badRequest e, db1)
  | .ok (db2, newId) => (.created newId fn, db2)

/-- The continuation of `POST /api/annotations` that runs inside the
`db.get` callback (`server.ts` lines 102-138), taking the lookup's
result as an argument: link the found label with `INSERT OR IGNORE`, or
create the label and then link it with a plain `INSERT`. -/
def attachAfterLookup (db : DB) (imageId : Int) (labelName : String)
    (label : Option LabelRow) : Resp × DB :=
  match label with
  | some l =>
    (.ok "Label added (or already linked to the image)!",
     sqlInsertAnnOrIgnore db imageId l.id)
  | none =>
    match sqlInsertLabel db labelName with
    | .error e => (.badRequest e, db)
    | .ok (db2, newId) =>
      match sqlInsertAnn db2 imageId newId with
      | .error e => (.badRequest e, db2)
      | .ok db3 => (.ok "New label created and linked to the image!", db3)

/-- `POST /api/annotations` (`server.ts` lines 85-139): truthiness
validation (`!imageId || !labelName` rejects exactly `imageId = 0` and
the empty label name), the 50-character bound, then lookup and
`attachAfterLookup`. -/
def attachLabel (db : DB) (imageId : Int) (labelName : String) : Resp × DB :=
  if imageId = 0 ∨ labelName = "" then
    (.badRequest "Image ID and label name are required!", db)
  else if labelName.length > 50 then
    (.badRequest "Label name cannot exceed 50 characters!", db)
  else
    attachAfterLookup db imageId labelName (sqlFindLabelByName db labelName)

/-- `DELETE /api/images/:id` (`server.ts` lines 170-209) after the
numeric parse: 404 when no row matches; otherwise `fs.unlink` whose
failure is only logged (`fsOk` says whether it succeeded), then the two
`DELETE` statements, then the success answer. -/
def deleteImage (db : DB) (i : Int) (fsOk : Bool) : Resp × DB :=
  match sqlGetImage db i with
  | none => (.notFound "Image not found in the database!", db)
  | some img =>
    let db1 := if fsOk then { db with files := db.files.erase img.file_path } else db
    let db2 := sqlDeleteAnnsByImage db1 i
    let db3 := sqlDeleteImageRow db2 i
    (.ok "Image deleted successfully (including file and annotations)!", db3)

/-- `DELETE /api/annotations` (`server.ts` lines 212-236): truthiness
validation of both ids (rejecting exactly `0` for an integer), then the
single `DELETE` statement, which succeeds whether or not a row matched. -/
def detachLabel (db : DB) (i l : Int) : Resp × DB :=
  if i = 0 ∨ l = 0 then
    (.badRequest "Valid Image ID and Label ID (numbers) are required!", db)
  else
    (.ok "Label removed from the image successfully!", sqlDeleteAnnPair db i l)

/-- A row of the `GET /api/images` answer (`server.ts` lines 144-150). -/
structure ImageWithLabels where
  id : Int
  filename : String
  file_path : String
  labels : Option String
  labelIds : Option String
deriving DecidableEq, Repr

/-- `GROUP_CONCAT(x, ', ')`: the non-NULL values joined by the
delimiter; SQLite yields NULL for an empty group, which the caller of
this function handles. -/
def groupConcat : List String → String
  | [] => ""
  | [s] => s
  | s :: rest => s ++ ", " ++ groupConcat rest

/-- The `(l.name, l.id)` pairs the double LEFT JOIN of the
`GET /api/images` query produces for one image, in annotation-insertion
order: annotations of the image, resolved through `labels`; an
unresolvable `label_id` contributes NULLs, which `GROUP_CONCAT` skips. -/
def imageLabelPairs (db : DB) (imgId : Int) : List (String × Int) :=
  (db.anns.filter (fun a => a.image_id == imgId)).filterMap
    (fun a => (db.labels.find? (fun l => l.id == a.label_id)).map
      (fun l => (l.name, l.id)))

/-- `GET /api/images` (`server.ts` lines 142-167): the GROUP_CONCAT
query, one row per image in id order, NULL label fields for an empty
group. -/
def listImages (db : DB) : List ImageWithLabels :=
  db.images.map (fun img =>
    let ps := imageLabelPairs db img.id
    { id := img.id, filename := img.filename, file_path := img.file_path,
      labels := if ps.isEmpty then none
                else some (groupConcat (ps.map (fun p => p.1))),
      labelIds := if ps.isEmpty then none
                  else some (groupConcat (ps.map (fun p => intDecimal p.2))) })

/-- The frontend's `img.labels.split(', ')` (`script.js`,
`renderImageGrid`), on character lists: leftmost non-overlapping split
on the two-character delimiter. -/
def splitCS : List Char → List (List Char)
  | [] => [[]]
  | [c] => [[c]]
  | c :: d :: rest =>
    if c = ',' ∧ d = ' ' then [] :: splitCS rest
    else
      match splitCS (d :: rest) with
      | [] => [[c]]
      | h :: t => (c :: h) :: t

/-- Whether a character list contains the delimiter `", "`. -/
def hasCS : List Char → Bool
  | [] => false
  | [_] => false
  | c :: d :: rest => (c = ',' && d = ' ') || hasCS (d :: rest)

/-- The §4.2 race on `POST /api/annotations`: two requests for the same
label name whose `db.get` label lookups both complete before either
request's writes run (the sqlite3 driver serializes the statements, but
nothing orders one request's lookup before the other's insert). Each
continuation then runs on the state the other left behind, with its own
stale lookup result. -/
def attachRace (db : DB) (i1 i2 : Int) (n : String) : Resp × Resp × DB :=
  let l1 := sqlFindLabelByName db n
  let l2 := sqlFindLabelByName db n
  let (r1, db1) := attachAfterLookup db i1 n l1
  let (r2, db2) := attachAfterLookup db1 i2 n l2
  (r1, r2, db2)

/-- The two messages of the handler's input validation in
`POST /api/annotations` (`server.ts` lines 94-99). -/
def isValidationErr (r : Resp) : Prop :=
  r = .badRequest "Image ID and label name are required!" ∨
  r = .badRequest "Label name cannot exceed 50 characters!"

instance (r : Resp) : Decidable (isValidationErr r) := by
  unfold isValidationErr; infer_instance

/-- Store with two images uploaded (ids 1 and 2), used to exhibit the
label-creation race. -/
def dbTwoImages : DB := (uploadImage (uploadImage initDB 1 "a.jpg").2 2 "b.jpg").2

/-- Store with one image (id 1) carrying the labels `"a, b"` and `"x"`
(both created through `AttachLabel`, whose validation accepts names
containing the delimiter). -/
def dbCommaLabel : DB :=
  (attachLabel ((attachLabel ((uploadImage initDB 1 "cat.jpg").2) 1 "a, b").2) 1 "x").2

/-- C1: `POST /api/annotations` with an `imageId` that identifies no
stored Image succeeds and stores a dangling Annotation row: on the
freshly initialized store (no images, seeded label `"cat"` with id 1),
`AttachLabel(5, "cat")` answers 200 and leaves the row `(5, 1)` in
`annotations` although `images` is empty.  The declared
`FOREIGN KEY ... ON DELETE CASCADE` constraints are never enforced
because the connection does not run `PRAGMA foreign_keys = ON`. -/
theorem attachLabel_stores_dangling_row :
    (attachLabel initDB 5 "cat").1 = .ok "Label added (or already linked to the image)!"
    ∧ (attachLabel initDB 5 "cat").2.anns = [⟨1, 5, 1⟩]
    ∧ (attachLabel initDB 5 "cat").2.images = [] := by
  decide

/-- C3: under the §4.2 interleaving (both label lookups before either
write), the second `AttachLabel` call with the same new label name does
not link the existing label: it gets the `labels.name` UNIQUE
constraint error (HTTP 400) and attaches nothing to image 2 — though
exactly one Label row named `"bird"` does exist afterwards. -/
theorem attachRace_second_call_errors :
    (attachRace dbTwoImages 1 2 "bird").1 = .ok "New label created and linked to the image!"
    ∧ (attachRace dbTwoImages 1 2 "bird").2.1 = .badRequest "UNIQUE constraint failed: labels.name"
    ∧ ((attachRace dbTwoImages 1 2 "bird").2.2.labels.filter (fun l => l.name == "bird")).length = 1
    ∧ (attachRace dbTwoImages 1 2 "bird").2.2.anns.filter (fun a => a.image_id == 2) = [] := by
  decide

/-- C4 counterexample: `imageId = -1` is not a positive integer, yet
`AttachLabel(-1, "cat")` raises no validation error (JavaScript
truthiness lets every nonzero number through) and mutates the store. -/
theorem attachLabel_accepts_negative_id :
    (attachLabel initDB (-1) "cat").1 = .ok "Label added (or already linked to the image)!"
    ∧ (attachLabel initDB (-1) "cat").2 ≠ initDB := by
  decide

/-- Once the input validation has passed, no outcome of the handler's
store interactions is one of the two validation-error answers. -/
lemma attachAfterLookup_not_validation (db : DB) (i : Int) (n : String)
    (lab : Option LabelRow) :
    ¬ isValidationErr (attachAfterLookup db i n lab).1 := by
  rcases lab with _ | l
  · by_cases hdup : (db.labels.find? (fun l => l.name == n)).isSome
    · simp [attachAfterLookup, sqlInsertLabel, hdup, isValidationErr]
    · by_cases hann : db.anns.any (fun a => annMatches a i db.nextLabelId) <;>
        simp [attachAfterLookup, sqlInsertLabel, hdup, sqlInsertAnn, hann,
          isValidationErr]
  · simp [attachAfterLookup, isValidationErr]

/-- C4 (amended): `AttachLabel` answers one of its two validation
errors exactly when `imageId = 0`, `labelName` is empty, or `labelName`
exceeds 50 characters, and in that case the store is untouched;
a nonzero negative `imageId` passes the truthiness validation. -/
theorem attachLabel_validation (db : DB) (i : Int) (n : String) :
    (isValidationErr (attachLabel db i n).1 ↔ (i = 0 ∨ n = "" ∨ n.length > 50))
    ∧ ((i = 0 ∨ n = "" ∨ n.length > 50) → (attachLabel db i n).2 = db) := by
  by_cases h1 : i = 0 ∨ n = ""
  · have hcond : i = 0 ∨ n = "" ∨ n.length > 50 := by tauto
    refine ⟨iff_of_true ?_ hcond, fun _ => ?_⟩ <;>
      simp [attachLabel, h1, isValidationErr]
  · by_cases h2 : n.length > 50
    · have hcond : i = 0 ∨ n = "" ∨ n.length > 50 := Or.inr (Or.inr h2)
      refine ⟨iff_of_true ?_ hcond, fun _ => ?_⟩ <;>
        simp [attachLabel, h1, h2, isValidationErr]
    · have hcond : ¬ (i = 0 ∨ n = "" ∨ n.length > 50) := by tauto
      have hne : ¬ isValidationErr (attachLabel db i n).1 := by
        unfold attachLabel
        rw [if_neg h1, if_neg h2]
        exact attachAfterLookup_not_validation db i n _
      exact ⟨iff_of_false hne hcond, fun h => absurd h hcond⟩

/-- C4 witness: at `imageId = 0` the validation fires and the store is
untouched. -/
theorem attachLabel_validation_witness :
    (attachLabel initDB 0 "cat").2 = initDB :=
  (attachLabel_validation initDB 0 "cat").2 (Or.inl rfl)

/-- Store with one image uploaded (id 1, filename `image-1.jpg`). -/
def dbOneImage : DB := (uploadImage initDB 1 "cat.jpg").2

/-- C2: deleting an existing image answers success for either outcome
of the `fs.unlink` call, removes every Annotation row referencing the
image and the Image row itself, leaves `labels` alone, and a failed
file removal leaves the uploads directory as it was. -/
theorem deleteImage_existing (db : DB) (i : Int) (img : ImageRow)
    (h : sqlGetImage db i = some img) (fsOk : Bool) :
    (deleteImage db i fsOk).1
      = .ok "Image deleted successfully (including file and annotations)!"
    ∧ (deleteImage db i fsOk).2.anns = db.anns.filter (fun a => !(a.image_id == i))
    ∧ (deleteImage db i fsOk).2.images = db.images.filter (fun r => !(r.id == i))
    ∧ (deleteImage db i fsOk).2.labels = db.labels
    ∧ (fsOk = false → (deleteImage db i fsOk).2.files = db.files) := by
  cases fsOk <;>
    simp [deleteImage, h, sqlDeleteAnnsByImage, sqlDeleteImageRow]

/-- C2 witness: deleting image 1 of `dbOneImage` with a failing
`fs.unlink` still answers success. -/
theorem deleteImage_existing_witness :
    sqlGetImage dbOneImage 1 = some ⟨1, "image-1.jpg", "uploads/image-1.jpg"⟩
    ∧ (deleteImage dbOneImage 1 false).1
      = .ok "Image deleted successfully (including file and annotations)!" :=
  ⟨by decide,
   (deleteImage_existing dbOneImage 1 ⟨1, "image-1.jpg", "uploads/image-1.jpg"⟩
     (by decide) false).1⟩

/-- C8: `DELETE /api/images/:id` for an id matching no Image row
answers 404 and returns the store — tables and uploads directory —
exactly as it was. -/
theorem deleteImage_missing_noop (db : DB) (i : Int) (fsOk : Bool)
    (h : sqlGetImage db i = none) :
    deleteImage db i fsOk = (.notFound "Image not found in the database!", db) := by
  simp [deleteImage, h]

/-- C8 witness: id 7 on the freshly initialized store. -/
theorem deleteImage_missing_noop_witness :
    deleteImage initDB 7 true = (.notFound "Image not found in the database!", initDB) :=
  deleteImage_missing_noop initDB 7 true (by decide)

/-- C9: with nonzero ids (every stored id is nonzero, and the
truthiness validation rejects exactly `0`), `DetachLabel` answers
success, removes exactly the matching Annotation rows, is the identity
when no row matches, and a second identical call answers success again
without changing anything. -/
theorem detachLabel_idempotent (db : DB) (i l : Int) (hi : i ≠ 0) (hl : l ≠ 0) :
    (detachLabel db i l).1 = .ok "Label removed from the image successfully!"
    ∧ (detachLabel db i l).2.anns = db.anns.filter (fun a => !(annMatches a i l))
    ∧ (db.anns.filter (fun a => annMatches a i l) = [] → (detachLabel db i l).2 = db)
    ∧ detachLabel (detachLabel db i l).2 i l
      = (.ok "Label removed from the image successfully!", (detachLabel db i l).2) := by
  have hv : ¬ (i = 0 ∨ l = 0) := by tauto
  refine ⟨?_, ?_, ?_, ?_⟩
  · simp [detachLabel, hv]
  · simp [detachLabel, hv, sqlDeleteAnnPair]
  · intro hnone
    have hself : db.anns.filter (fun a => !(annMatches a i l)) = db.anns := by
      rw [List.filter_eq_self]
      intro a ha
      have : ¬ (annMatches a i l = true) := by
        intro hm
        have : a ∈ db.anns.filter (fun a => annMatches a i l) :=
          List.mem_filter.mpr ⟨ha, hm⟩
        simp [hnone] at this
      simp [this]
    simp [detachLabel, hv, sqlDeleteAnnPair, hself]
  · simp [detachLabel, hv, sqlDeleteAnnPair, List.filter_filter]

/-- C9 witness: on the fresh store (no annotations) both calls with
ids (1, 1) succeed and change nothing. -/
theorem detachLabel_idempotent_witness :
    (detachLabel initDB 1 1).1 = .ok "Label removed from the image successfully!"
    ∧ (detachLabel initDB 1 1).2 = initDB :=
  ⟨(detachLabel_idempotent initDB 1 1 (by decide) (by decide)).1,
   (detachLabel_idempotent initDB 1 1 (by decide) (by decide)).2.2.1 (by decide)⟩

/-- C10: `DetachLabel` never touches the `labels` or `images` tables,
and `DeleteImage` never touches `labels` — a label left without
annotations persists as an orphan. -/
theorem ops_preserve_labels (db : DB) (i l : Int) (fsOk : Bool) :
    (detachLabel db i l).2.labels = db.labels
    ∧ (detachLabel db i l).2.images = db.images
    ∧ (deleteImage db i fsOk).2.labels = db.labels := by
  refine ⟨?_, ?_, ?_⟩
  · unfold detachLabel; split <;> rfl
  · unfold detachLabel; split <;> rfl
  · rcases h : sqlGetImage db i with _ | img <;>
      cases fsOk <;> simp [deleteImage, h, sqlDeleteAnnsByImage, sqlDeleteImageRow]

/-- `INSERT OR IGNORE` into `annotations` leaves `labels` alone. -/
lemma insertAnnOrIgnore_labels (db : DB) (i l : Int) :
    (sqlInsertAnnOrIgnore db i l).labels = db.labels := by
  unfold sqlInsertAnnOrIgnore; split <;> rfl

/-- After `INSERT OR IGNORE` of a pair whose row count respected the
UNIQUE constraint, exactly one row carries the pair. -/
lemma countPair_insertOrIgnore (db : DB) (i l : Int)
    (h : (db.anns.filter (fun a => annMatches a i l)).length ≤ 1) :
    ((sqlInsertAnnOrIgnore db i l).anns.filter (fun a => annMatches a i l)).length = 1 := by
  by_cases hany : db.anns.any (fun a => annMatches a i l)
  · have hpos : 0 < (db.anns.filter (fun a => annMatches a i l)).length := by
      rcases List.any_eq_true.mp hany with ⟨a, ha, hm⟩
      exact List.length_pos.mpr
        (List.ne_nil_of_mem (List.mem_filter.mpr ⟨ha, hm⟩))
    unfold sqlInsertAnnOrIgnore
    rw [if_pos hany]
    omega
  · have hempty : db.anns.filter (fun a => annMatches a i l) = [] := by
      rw [List.filter_eq_nil_iff]
      intro a ha hm
      exact hany (List.any_eq_true.mpr ⟨a, ha, hm⟩)
    unfold sqlInsertAnnOrIgnore
    rw [if_neg hany]
    rw [List.filter_append, hempty]
    simp [annMatches]

/-- After `INSERT OR IGNORE` of a pair, a row with the pair exists. -/
lemma insertAnnOrIgnore_any (db : DB) (i l : Int) :
    (sqlInsertAnnOrIgnore db i l).anns.any (fun a => annMatches a i l) = true := by
  by_cases hany : db.anns.any (fun a => annMatches a i l)
  · unfold sqlInsertAnnOrIgnore; rw [if_pos hany]; exact hany
  · unfold sqlInsertAnnOrIgnore; rw [if_neg hany]
    simp [List.any_append, annMatches]

/-- `INSERT OR IGNORE` of an already-present pair is the identity. -/
lemma insertAnnOrIgnore_of_any (db : DB) (i l : Int)
    (h : db.anns.any (fun a => annMatches a i l) = true) :
    sqlInsertAnnOrIgnore db i l = db := by
  unfold sqlInsertAnnOrIgnore; rw [if_pos h]

/-- C5: for a label already stored under `labelName`, two identical
`AttachLabel` calls both answer the "linked existing label" success,
the second is a no-op, and exactly one Annotation row carries the pair
(the count hypothesis is the `UNIQUE(image_id, label_id)` constraint
the store maintains). -/
theorem attachLabel_existing_idempotent (db : DB) (i : Int) (n : String)
    (lab : LabelRow) (hfind : sqlFindLabelByName db n = some lab)
    (hi : i ≠ 0) (hn : n ≠ "") (hlen : ¬ n.length > 50)
    (hcount : (db.anns.filter (fun a => annMatches a i lab.id)).length ≤ 1) :
    (attachLabel db i n).1 = .ok "Label added (or already linked to the image)!"
    ∧ (attachLabel (attachLabel db i n).2 i n).1
      = .ok "Label added (or already linked to the image)!"
    ∧ (attachLabel (attachLabel db i n).2 i n).2 = (attachLabel db i n).2
    ∧ ((attachLabel db i n).2.anns.filter (fun a => annMatches a i lab.id)).length = 1 := by
  have hv : ¬ (i = 0 ∨ n = "") := by tauto
  have h1 : attachLabel db i n
      = (.ok "Label added (or already linked to the image)!",
         sqlInsertAnnOrIgnore db i lab.id) := by
    unfold attachLabel
    rw [if_neg hv, if_neg hlen, hfind]
    simp [attachAfterLookup]
  have hfind1 : sqlFindLabelByName (sqlInsertAnnOrIgnore db i lab.id) n = some lab := by
    unfold sqlFindLabelByName at hfind ⊢
    rw [insertAnnOrIgnore_labels]
    exact hfind
  have h2 : attachLabel (sqlInsertAnnOrIgnore db i lab.id) i n
      = (.ok "Label added (or already linked to the image)!",
         sqlInsertAnnOrIgnore db i lab.id) := by
    unfold attachLabel
    rw [if_neg hv, if_neg hlen, hfind1]
    simp [attachAfterLookup]
    exact insertAnnOrIgnore_of_any _ i lab.id (insertAnnOrIgnore_any db i lab.id)
  refine ⟨by rw [h1], ?_, ?_, ?_⟩
  · rw [h1]; rw [h2]
  · rw [h1]; rw [h2]
  · rw [h1]
    exact countPair_insertOrIgnore db i lab.id hcount

/-- C5 witness: attaching the seeded label `"cat"` twice to image 1 of
`dbOneImage` leaves exactly one Annotation row for the pair (1, 1). -/
theorem attachLabel_existing_idempotent_witness :
    ((attachLabel dbOneImage 1 "cat").2.anns.filter
      (fun a => annMatches a 1 (⟨1, "cat"⟩ : LabelRow).id)).length = 1 :=
  (attachLabel_existing_idempotent dbOneImage 1 "cat" ⟨1, "cat"⟩
    (by decide) (by decide) (by decide) (by decide) (by decide)).2.2.2

/-- The decimal rendering of `n` is nonempty when the fuel covers `n`. -/
lemma natDecimalAux_ne_nil (f n : Nat) (h : n < f) : natDecimalAux f n ≠ [] := by
  cases f with
  | zero => omega
  | succ f =>
    unfold natDecimalAux
    split <;> simp

/-- The digits produced do not depend on the fuel, as long as it covers
the argument. -/
lemma natDecimalAux_fuel (f1 : Nat) : ∀ f2 n : Nat, n < f1 → n < f2 →
    natDecimalAux f1 n = natDecimalAux f2 n := by
  induction f1 with
  | zero => intro f2 n h1; omega
  | succ f1 ih =>
    intro f2 n h1 h2
    cases f2 with
    | zero => omega
    | succ f2 =>
      unfold natDecimalAux
      by_cases h10 : n < 10
      · simp [h10]
      · have hd : n / 10 < n := Nat.div_lt_self (by omega) (by omega)
        simp only [h10, if_false]
        rw [ih f2 (n / 10) (by omega) (by omega)]

/-- Every character of the decimal rendering is a digit. -/
lemma natDecimalAux_digits (f : Nat) : ∀ n c, c ∈ natDecimalAux f n →
    c.isDigit = true := by
  induction f with
  | zero => intro n c hc; simp [natDecimalAux] at hc
  | succ f ih =>
    intro n c hc
    have hdigit : ∀ m : Nat, m < 10 → (Nat.digitChar m).isDigit = true := by decide
    unfold natDecimalAux at hc
    by_cases h10 : n < 10
    · simp [h10] at hc
      subst hc
      exact hdigit n h10
    · simp [h10] at hc
      rcases hc with hc | hc
      · exact ih _ _ hc
      · subst hc
        exact hdigit (n % 10) (Nat.mod_lt _ (by omega))

/-- At a common covering fuel, the decimal rendering is injective. -/
lemma natDecimalAux_inj (f : Nat) : ∀ m n, m < f → n < f →
    natDecimalAux f m = natDecimalAux f n → m = n := by
  induction f with
  | zero => intro m n hm _ _; omega
  | succ f ih =>
    intro m n hm hn heq
    have hdigit : ∀ a, a < 10 → ∀ b, b < 10 →
        Nat.digitChar a = Nat.digitChar b → a = b := by decide
    unfold natDecimalAux at heq
    by_cases hm10 : m < 10 <;> by_cases hn10 : n < 10
    · simp [hm10, hn10] at heq
      exact hdigit m hm10 n hn10 heq
    · exfalso
      simp [hm10, hn10] at heq
      have hne : natDecimalAux f (n / 10) ≠ [] := by
        have : n / 10 < n := Nat.div_lt_self (by omega) (by omega)
        exact natDecimalAux_ne_nil f (n / 10) (by omega)
      have hlen := congrArg List.length heq
      simp only [List.length_append, List.length_singleton] at hlen
      have hzero : (natDecimalAux f (n / 10)).length = 0 := by omega
      exact hne (List.length_eq_zero.mp hzero)
    · exfalso
      simp [hm10, hn10] at heq
      have hne : natDecimalAux f (m / 10) ≠ [] := by
        have : m / 10 < m := Nat.div_lt_self (by omega) (by omega)
        exact natDecimalAux_ne_nil f (m / 10) (by omega)
      have hlen := congrArg List.length heq
      simp only [List.length_append, List.length_singleton] at hlen
      have hzero : (natDecimalAux f (m / 10)).length = 0 := by omega
      exact hne (List.length_eq_zero.mp hzero)
    · simp [hm10, hn10] at heq
      have hrev := congrArg List.reverse heq
      simp only [List.reverse_append, List.reverse_cons, List.reverse_nil,
        List.nil_append, List.singleton_append, List.cons.injEq] at hrev
      obtain ⟨hhead, htail⟩ := hrev
      have hmdiv : m / 10 < m := Nat.div_lt_self (by omega) (by omega)
      have hndiv : n / 10 < n := Nat.div_lt_self (by omega) (by omega)
      have hdiv : m / 10 = n / 10 :=
        ih (m / 10) (n / 10) (by omega) (by omega) (List.reverse_inj.mp htail)
      have hmod : m % 10 = n % 10 :=
        hdigit (m % 10) (Nat.mod_lt _ (by omega)) (n % 10) (Nat.mod_lt _ (by omega)) hhead
      omega

/-- No character of a decimal rendering is a dot. -/
lemma natDecimal_not_dot (t : Nat) : '.' ∉ (natDecimal t).data := by
  intro hmem
  have := natDecimalAux_digits (t + 1) t '.' hmem
  exact absurd this (by decide)

/-- Injectivity of the decimal rendering, at the level of characters. -/
lemma natDecimal_data_inj {m n : Nat}
    (h : (natDecimal m).data = (natDecimal n).data) : m = n := by
  have h1 : natDecimalAux (m + n + 1) m = natDecimalAux (m + 1) m :=
    natDecimalAux_fuel (m + n + 1) (m + 1) m (by omega) (by omega)
  have h2 : natDecimalAux (m + n + 1) n = natDecimalAux (n + 1) n :=
    natDecimalAux_fuel (m + n + 1) (n + 1) n (by omega) (by omega)
  exact natDecimalAux_inj (m + n + 1) m n (by omega) (by omega)
    (by rw [h1, h2]; exact h)

/-- Cancellation at the first occurrence of `a`: two decompositions of
one list around an element absent from both prefixes agree. -/
lemma append_cons_cancel {α : Type} (a : α) :
    ∀ (l1 l2 r1 r2 : List α), a ∉ l1 → a ∉ l2 →
      l1 ++ a :: r1 = l2 ++ a :: r2 → l1 = l2 := by
  intro l1
  induction l1 with
  | nil =>
    intro l2 r1 r2 _ h2 heq
    cases l2 with
    | nil => rfl
    | cons b l2 =>
      exfalso
      simp only [List.nil_append, List.cons_append, List.cons.injEq] at heq
      exact h2 (heq.1 ▸ List.mem_cons_self b l2)
  | cons b l1 ih =>
    intro l2 r1 r2 h1 h2 heq
    cases l2 with
    | nil =>
      exfalso
      simp only [List.nil_append, List.cons_append, List.cons.injEq] at heq
      exact h1 (heq.1 ▸ List.mem_cons_self b l1)
    | cons c l2 =>
      simp only [List.cons_append, List.cons.injEq] at heq
      obtain ⟨hbc, htail⟩ := heq
      subst hbc
      rw [ih l2 r1 r2 (fun hm => h1 (List.mem_cons_of_mem _ hm))
        (fun hm => h2 (List.mem_cons_of_mem _ hm)) htail]

/-- C7 counterexample: two accepted uploads in the same `Date.now()`
millisecond with the same extension get the same generated filename;
replaying them shows the second upload's disk write lands on the first
upload's path (no new file appears) and its row insert is rejected by
the `filename UNIQUE` constraint. -/
theorem genFilename_same_timestamp_collision :
    genFilename 1700000000000 "cat.jpg" = genFilename 1700000000000 "dog.jpg"
    ∧ "cat.jpg" ≠ "dog.jpg"
    ∧ (uploadImage (uploadImage initDB 1700000000000 "cat.jpg").2 1700000000000 "dog.jpg").1
      = .badRequest "UNIQUE constraint failed: images.filename"
    ∧ (uploadImage (uploadImage initDB 1700000000000 "cat.jpg").2 1700000000000 "dog.jpg").2.files
      = (uploadImage initDB 1700000000000 "cat.jpg").2.files := by
  decide

/-- C7 (amended): uploads whose `Date.now()` values differ get distinct
filenames, whatever the original names were: the timestamp occupies the
digits before the first dot of the generated name. -/
theorem genFilename_inj_time (t1 t2 : Nat) (o1 o2 : String) (h : t1 ≠ t2) :
    genFilename t1 o1 ≠ genFilename t2 o2 := by
  intro heq
  apply h
  have hdata := congrArg String.data heq
  simp only [genFilename, String.data_append] at hdata
  have hdata2 : (natDecimal t1).data ++ '.' :: (extOf o1).data
      = (natDecimal t2).data ++ '.' :: (extOf o2).data := by
    have h3 : "image-".data ++ ((natDecimal t1).data ++ '.' :: (extOf o1).data)
        = "image-".data ++ ((natDecimal t2).data ++ '.' :: (extOf o2).data) := by
      simpa using hdata
    exact List.append_cancel_left h3
  exact natDecimal_data_inj
    (append_cons_cancel '.' _ _ _ _ (natDecimal_not_dot t1) (natDecimal_not_dot t2) hdata2)

/-- C7 witness: distinct timestamps 1 and 2 give distinct filenames. -/
theorem genFilename_inj_time_witness :
    genFilename 1 "a.jpg" ≠ genFilename 2 "a.jpg" :=
  genFilename_inj_time 1 2 "a.jpg" "a.jpg" (by decide)

/-- A delimiter-free string splits to itself. -/
lemma splitCS_of_not_hasCS (x : List Char) (h : hasCS x = false) :
    splitCS x = [x] := by
  induction x with
  | nil => rfl
  | cons c rest ih =>
    cases rest with
    | nil => rfl
    | cons d rest2 =>
      simp only [hasCS, Bool.or_eq_false_iff, Bool.and_eq_false_iff] at h
      have hx : ¬ (c = ',' ∧ d = ' ') := by
        intro hc
        rcases h.1 with h1 | h1 <;> simp [hc.1, hc.2] at h1
      rw [splitCS, if_neg hx, ih h.2]

/-- Splitting cuts exactly at the first delimiter when the prefix is
delimiter-free. -/
lemma splitCS_append (x : List Char) (r : List Char) (h : hasCS x = false) :
    splitCS (x ++ ',' :: ' ' :: r) = x :: splitCS r := by
  induction x with
  | nil => simp [splitCS]
  | cons c rest ih =>
    cases rest with
    | nil =>
      have hx : ¬ (c = ',' ∧ ',' = ' ') := by
        intro hc
        exact absurd hc.2 (by decide)
      have hinner : splitCS (',' :: ' ' :: r) = [] :: splitCS r := by
        simp [splitCS]
      simp only [List.cons_append, List.nil_append]
      rw [splitCS, if_neg hx, hinner]
    | cons d rest2 =>
      simp only [hasCS, Bool.or_eq_false_iff, Bool.and_eq_false_iff] at h
      have hx : ¬ (c = ',' ∧ d = ' ') := by
        intro hc
        rcases h.1 with h1 | h1 <;> simp [hc.1, hc.2] at h1
      have h2 : hasCS (d :: rest2) = false := h.2
      simp only [List.cons_append]
      rw [splitCS, if_neg hx]
      have := ih h2
      simp only [List.cons_append] at this
      rw [this]

/-- Splitting the `GROUP_CONCAT` of delimiter-free strings on the
delimiter recovers exactly the concatenated strings. -/
lemma splitCS_groupConcat (ss : List String) (hne : ss ≠ [])
    (h : ∀ s ∈ ss, hasCS s.data = false) :
    splitCS (groupConcat ss).data = ss.map String.data := by
  induction ss with
  | nil => exact absurd rfl hne
  | cons s rest ih =>
    cases rest with
    | nil =>
      have : groupConcat [s] = s := rfl
      rw [this]
      simp [splitCS_of_not_hasCS s.data (h s (List.mem_cons_self s []))]
    | cons s2 rest2 =>
      have hgc : groupConcat (s :: s2 :: rest2) = s ++ ", " ++ groupConcat (s2 :: rest2) := rfl
      have hdata : (s ++ ", " ++ groupConcat (s2 :: rest2)).data
          = s.data ++ ',' :: ' ' :: (groupConcat (s2 :: rest2)).data := by
        simp [String.data_append]
      rw [hgc, hdata, splitCS_append s.data _ (h s (List.mem_cons_self s _))]
      rw [ih (by simp) (fun x hx => h x (List.mem_cons_of_mem s hx))]
      simp

/-- A string without commas is delimiter-free. -/
lemma hasCS_of_no_comma (l : List Char) (h : ∀ c ∈ l, c ≠ ',') :
    hasCS l = false := by
  induction l with
  | nil => rfl
  | cons c rest ih =>
    cases rest with
    | nil => rfl
    | cons d rest2 =>
      have hc : c ≠ ',' := h c (List.mem_cons_self c _)
      rw [hasCS]
      simp [hc]
      exact ih (fun x hx => h x (List.mem_cons_of_mem c hx))

/-- The decimal rendering of an integer id contains no comma. -/
lemma intDecimal_no_comma (i : Int) : ∀ c ∈ (intDecimal i).data, c ≠ ',' := by
  intro c hc
  cases i with
  | ofNat n =>
    have hd := natDecimalAux_digits (n + 1) n c hc
    intro he
    rw [he] at hd
    exact absurd hd (by decide)
  | negSucc n =>
    have hdata : (intDecimal (Int.negSucc n)).data
        = '-' :: (natDecimal (n + 1)).data := by
      simp [intDecimal, String.data_append]
    rw [hdata] at hc
    rcases List.mem_cons.mp hc with he | hmem
    · subst he; decide
    · have hd := natDecimalAux_digits (n + 2) (n + 1) c hmem
      intro he
      rw [he] at hd
      exact absurd hd (by decide)

/-- Every pair the join produces for an image is an actual Label row:
the name at a position and the id at the same position belong to one
row of `labels`. -/
lemma imageLabelPairs_mem (db : DB) (imgId : Int) (p : String × Int)
    (hp : p ∈ imageLabelPairs db imgId) :
    ∃ lab ∈ db.labels, p = (lab.name, lab.id) := by
  unfold imageLabelPairs at hp
  rcases List.mem_filterMap.mp hp with ⟨a, ha, hfa⟩
  rcases hfind : db.labels.find? (fun l => l.id == a.label_id) with _ | lab
  · rw [hfind] at hfa; simp at hfa
  · rw [hfind] at hfa
    have heq : (lab.name, lab.id) = p := by simpa using hfa
    exact ⟨lab, List.mem_of_find?_eq_some hfind, heq.symm⟩

/-- C6 (amended): `GET /api/images` yields exactly one row per Image
(in order, with the image's identity and metadata); an image with no
annotations gets NULL `labels`/`labelIds`; and provided no stored label
name contains the delimiter `", "`, splitting the two concatenated
fields on the delimiter yields the name list and the id list of one
common list of Label rows — the id at index i is the identity of the
label named at index i. -/
theorem listImages_parallel (db : DB)
    (hnames : ∀ lab ∈ db.labels, hasCS lab.name.data = false) :
    (listImages db).map (fun r => (r.id, r.filename, r.file_path))
      = db.images.map (fun img => (img.id, img.filename, img.file_path))
    ∧ (∀ row ∈ listImages db,
        db.anns.filter (fun a => a.image_id == row.id) = [] →
          row.labels = none ∧ row.labelIds = none)
    ∧ (∀ row ∈ listImages db, imageLabelPairs db row.id ≠ [] →
        ∃ L I, row.labels = some L ∧ row.labelIds = some I
          ∧ splitCS L.data = (imageLabelPairs db row.id).map (fun p => p.1.data)
          ∧ splitCS I.data
            = (imageLabelPairs db row.id).map (fun p => (intDecimal p.2).data)
          ∧ ∀ p ∈ imageLabelPairs db row.id,
              ∃ lab ∈ db.labels, p = (lab.name, lab.id)) := by
  refine ⟨?_, ?_, ?_⟩
  · rw [listImages, List.map_map]
    rfl
  · intro row hrow hflt
    obtain ⟨img, himg, hr⟩ := List.mem_map.mp hrow
    have hid : row.id = img.id := by rw [← hr]
    rw [hid] at hflt
    have hps : imageLabelPairs db img.id = [] := by
      unfold imageLabelPairs
      rw [hflt]
      rfl
    have hlabels : row.labels
        = (if (imageLabelPairs db img.id).isEmpty then none
           else some (groupConcat ((imageLabelPairs db img.id).map (fun p => p.1)))) := by
      rw [← hr]
    have hlabelIds : row.labelIds
        = (if (imageLabelPairs db img.id).isEmpty then none
           else some (groupConcat
             ((imageLabelPairs db img.id).map (fun p => intDecimal p.2)))) := by
      rw [← hr]
    rw [hps] at hlabels hlabelIds
    simp at hlabels hlabelIds
    exact ⟨hlabels, hlabelIds⟩
  · intro row hrow hne
    obtain ⟨img, himg, hr⟩ := List.mem_map.mp hrow
    have hid : row.id = img.id := by rw [← hr]
    rw [hid] at hne ⊢
    have hie : (imageLabelPairs db img.id).isEmpty = false := by
      rcases h : imageLabelPairs db img.id with _ | ⟨p, ps⟩
      · exact absurd h hne
      · rfl
    have hlabels : row.labels
        = some (groupConcat ((imageLabelPairs db img.id).map (fun p => p.1))) := by
      have h0 : row.labels
          = (if (imageLabelPairs db img.id).isEmpty then none
             else some (groupConcat ((imageLabelPairs db img.id).map (fun p => p.1)))) := by
        rw [← hr]
      rw [h0, hie]
      simp
    have hlabelIds : row.labelIds
        = some (groupConcat
            ((imageLabelPairs db img.id).map (fun p => intDecimal p.2))) := by
      have h0 : row.labelIds
          = (if (imageLabelPairs db img.id).isEmpty then none
             else some (groupConcat
               ((imageLabelPairs db img.id).map (fun p => intDecimal p.2)))) := by
        rw [← hr]
      rw [h0, hie]
      simp
    refine ⟨_, _, hlabels, hlabelIds, ?_, ?_,
      fun p hp => imageLabelPairs_mem db img.id p hp⟩
    · have hmapne : (imageLabelPairs db img.id).map (fun p => p.1) ≠ [] := by
        simpa using hne
      have hcf : ∀ s ∈ (imageLabelPairs db img.id).map (fun p => p.1),
          hasCS s.data = false := by
        intro s hs
        rcases List.mem_map.mp hs with ⟨p, hp, hps⟩
        rcases imageLabelPairs_mem db img.id p hp with ⟨lab, hlab, hpe⟩
        rw [← hps, hpe]
        exact hnames lab hlab
      rw [splitCS_groupConcat _ hmapne hcf, List.map_map]
      rfl
    · have hmapne : (imageLabelPairs db img.id).map (fun p => intDecimal p.2) ≠ [] := by
        simpa using hne
      have hcf : ∀ s ∈ (imageLabelPairs db img.id).map (fun p => intDecimal p.2),
          hasCS s.data = false := by
        intro s hs
        rcases List.mem_map.mp hs with ⟨p, hp, hps⟩
        rw [← hps]
        exact hasCS_of_no_comma _ (intDecimal_no_comma p.2)
      rw [splitCS_groupConcat _ hmapne hcf, List.map_map]
      rfl

/-- C6 counterexample: the label name `"a, b"` (accepted by
`AttachLabel`'s validation) contains the delimiter, so the frontend's
split of the row for image 1 of `dbCommaLabel` yields three "names" but
two ids, and the name at index 1 is `"b"` — the identity at index 1 of
`labelIds` is not the id of any label named `"b"`; no label `"b"`
exists at all. -/
theorem listImages_split_misaligned :
    (listImages dbCommaLabel).map (fun r => (r.labels, r.labelIds))
      = [(some "a, b, x", some "4, 5")]
    ∧ (splitCS "a, b, x".data).length = 3
    ∧ (splitCS "4, 5".data).length = 2
    ∧ (splitCS "a, b, x".data).getD 1 [] = "b".data
    ∧ dbCommaLabel.labels.all (fun lab => !(lab.name == "b")) = true := by
  decide

/-- Store with one image (id 1) labelled `"cat"` and `"dog"` — the §8
scenario of the specification. -/
def dbScenario : DB := (attachLabel (attachLabel dbOneImage 1 "cat").2 1 "dog").2

/-- C6 witness: the seeded label names are delimiter-free and the
listing of the two-label scenario store has one row per image. -/
theorem listImages_parallel_witness :
    hasCS "cat".data = false ∧ hasCS "dog".data = false ∧ hasCS "car".data = false
    ∧ (listImages dbScenario).map (fun r => (r.id, r.filename, r.file_path))
      = dbScenario.images.map (fun img => (img.id, img.filename, img.file_path)) :=
  ⟨by decide, by decide, by decide, (listImages_parallel dbScenario (by decide)).1⟩
